import Mathlib

/-!
Shallow embedding of the CRM backend (crm/schema.py and crm/seed_db.py).

The relational store is modelled as three append-only lists; primary keys
are assigned as `length + 1`, matching an auto-increment column with no
deletion path (deletion is out of scope).  Monetary values use `ℚ` for
exact arithmetic.  `order_date` (a wall-clock timestamp) is not modelled.
Each mutation returns the post-call store together with
`Except CrmError α`: a raised `ValidationError` leaves the store unchanged,
since every `raise` in the source happens before any write.
-/

namespace Crm

/-- Error kinds, one per `raise ValidationError` site in crm/schema.py,
named as in the specification's error-handling section. -/
inductive CrmError where
  | DuplicateError
  | FormatError
  | RequiredFieldError
  | RangeError
  | NotFoundError
  | ReferenceError
deriving DecidableEq, Repr

/-- Customer row: id, name, email, optional phone (crm/models binding used
by `CustomerType`). -/
structure Customer where
  id : Nat
  name : String
  email : String
  phone : Option String
deriving DecidableEq, Repr

/-- Product row: id, name, price, stock. -/
structure Product where
  id : Nat
  name : String
  price : ℚ
  stock : Int
deriving DecidableEq, Repr

/-- Order row: id, customer foreign key, the many-to-many product set
(as the list of associated product ids), and the stored total. -/
structure Order where
  id : Nat
  customer_id : Nat
  product_ids : List Nat
  total_amount : ℚ
deriving DecidableEq, Repr

/-- The relational store: all three tables. -/
structure Store where
  customers : List Customer
  products : List Product
  orders : List Order
deriving DecidableEq, Repr

def emptyStore : Store := ⟨[], [], []⟩

/-- Pattern `NNN-NNN-NNNN`: second alternative of the phone regex. -/
def dashFormat : List Char → Bool
  | [a, b, c, '-', d, e, f, '-', g, h, i, j] =>
      [a, b, c, d, e, f, g, h, i, j].all Char.isDigit
  | _ => false

/-- The check `re.match(r"^(\+?\d{10,15}|\d{3}-\d{3}-\d{4})$", s)` as a Bool:
either an optional leading `+` followed by 10 to 15 digits spanning the
whole string, or the dash format. -/
def phoneMatches (s : String) : Bool :=
  let cs := s.toList
  let plain := match cs with
    | '+' :: rest => rest
    | _ => cs
  (plain.all Char.isDigit && decide (10 ≤ plain.length)
      && decide (plain.length ≤ 15))
    || dashFormat cs

/-- The lookup `Customer.objects.filter(email=email).exists()`. -/
def emailExists (st : Store) (email : String) : Bool :=
  st.customers.any (fun c => c.email == email)

/-- The guard `if phone and not re.match(...)`: the check fires only when the phone
is truthy (neither absent nor empty) and fails the regex. -/
def phoneInvalid : Option String → Bool
  | none => false
  | some p => !(p == "") && !(phoneMatches p)

/-- Append a fresh customer row; the new primary key is `length + 1`. -/
def mkCustomer (st : Store) (name email : String) (phone : Option String) :
    Customer :=
  ⟨st.customers.length + 1, name, email, phone⟩

def addCustomer (st : Store) (c : Customer) : Store :=
  { st with customers := st.customers ++ [c] }

/-- Mutation `CreateCustomer.mutate` (crm/schema.py lines 44-55): duplicate-email
check, then phone-format check, then save. -/
def createCustomer (st : Store) (name email : String)
    (phone : Option String) : Store × Except CrmError Customer :=
  if emailExists st email then
    (st, .error .DuplicateError)
  else if phoneInvalid phone then
    (st, .error .FormatError)
  else
    let c := mkCustomer st name email phone
    (addCustomer st c, .ok c)

/-- One entry of the bulk payload: `customer_data.get(...)` yields `none`
for an absent key. -/
structure CustomerInput where
  name : Option String
  email : Option String
  phone : Option String
deriving DecidableEq, Repr

/-- Python falsiness of an optional string: `None` or `""`. -/
def strFalsy : Option String → Bool
  | none => true
  | some s => s == ""

/-- The body of the `try` block in `BulkCreateCustomers.mutate`
(crm/schema.py lines 74-90): required-field check, duplicate-email check
against the current store, phone-format check, save.  Errors carry the
message string appended by the `except` clause. -/
def bulkEntry (st : Store) (d : CustomerInput) :
    Except String (Store × Customer) :=
  if strFalsy d.name || strFalsy d.email then
    .error "Name and Email are required."
  else
    let name := d.name.getD ""
    let email := d.email.getD ""
    if emailExists st email then
      .error ("Email already exists: " ++ email)
    else if phoneInvalid d.phone then
      .error ("Invalid phone format for: " ++ (d.phone.getD ""))
    else
      let c := mkCustomer st name email d.phone
      .ok (addCustomer st c, c)

/-- Mutation `BulkCreateCustomers.mutate` (crm/schema.py lines 68-95): the for loop
over entries, accumulating created customers and error strings in input
order; a failing entry is caught and processing continues.  The mutate
body returns normally, so the `transaction.atomic` wrapper commits and
partial results persist. -/
def bulkCreateCustomers (st : Store) :
    List CustomerInput → Store × List Customer × List String
  | [] => (st, [], [])
  | d :: rest =>
    match bulkEntry st d with
    | .ok sc =>
        let r := bulkCreateCustomers sc.1 rest
        (r.1, sc.2 :: r.2.1, r.2.2)
    | .error msg =>
        let r := bulkCreateCustomers st rest
        (r.1, r.2.1, msg :: r.2.2)

/-- Per-iteration outcome sequence of the same BulkCreateCustomers loop:
the i-th element records what iteration i did with the i-th entry — the
customer it saved, or the error message it appended.  The store is
threaded exactly as in `bulkCreateCustomers`. -/
def bulkResults (st : Store) :
    List CustomerInput → List (Except String Customer)
  | [] => []
  | d :: rest =>
    match bulkEntry st d with
    | .ok sc => .ok sc.2 :: bulkResults sc.1 rest
    | .error msg => .error msg :: bulkResults st rest

/-- Projection of an iteration outcome onto its error message. -/
def errPart : Except String Customer → Option String
  | .error m => some m
  | .ok _ => none

def mkProduct (st : Store) (name : String) (price : ℚ) (stock : Int) :
    Product :=
  ⟨st.products.length + 1, name, price, stock⟩

def addProduct (st : Store) (p : Product) : Store :=
  { st with products := st.products ++ [p] }

/-- Mutation `CreateProduct.mutate` (crm/schema.py lines 107-115): price bound,
stock bound, save.  No check involves the name. -/
def createProduct (st : Store) (name : String) (price : ℚ) (stock : Int) :
    Store × Except CrmError Product :=
  if price ≤ 0 then
    (st, .error .RangeError)
  else if stock < 0 then
    (st, .error .RangeError)
  else
    let p := mkProduct st name price stock
    (addProduct st p, .ok p)

/-- The graphene argument default `stock = Int(required=False,
default_value=0)` (crm/schema.py line 103): calling CreateProduct with the
stock argument omitted. -/
def createProductDefault (st : Store) (name : String) (price : ℚ) :
    Store × Except CrmError Product :=
  createProduct st name price 0

/-- The lookup `Customer.objects.get(pk=customer_id)` as an Option. -/
def findCustomer (st : Store) (cid : Nat) : Option Customer :=
  st.customers.find? (fun c => c.id == cid)

/-- The query `Product.objects.filter(id__in=product_ids)`: each stored row whose id
occurs in the requested list, once per row. -/
def resolvedProducts (st : Store) (productIds : List Nat) : List Product :=
  st.products.filter (fun p => productIds.contains p.id)

/-- Mutation `CreateOrder.mutate` (crm/schema.py lines 126-146): resolve the
customer, require a non-empty id list, compare the resolved row count with
the requested list length, then create the order with the association set
and the price sum over the resolved rows. -/
def createOrder (st : Store) (customerId : Nat) (productIds : List Nat) :
    Store × Except CrmError Order :=
  match findCustomer st customerId with
  | none => (st, .error .NotFoundError)
  | some _ =>
    if productIds.isEmpty then
      (st, .error .RequiredFieldError)
    else
      let products := resolvedProducts st productIds
      if products.length ≠ productIds.length then
        (st, .error .ReferenceError)
      else
        let total := (products.map Product.price).sum
        let o : Order :=
          ⟨st.orders.length + 1, customerId, products.map Product.id, total⟩
        ({ st with orders := st.orders ++ [o] }, .ok o)

/-- Routine `seed_customers` (crm/seed_db.py lines 12-27): get-or-create each of
the three sample customers keyed by email. -/
def seedCustomerData : List (String × String × String) :=
  [("Alice", "alice@example.com", "12345"),
   ("Bob", "bob@example.com", "67890"),
   ("Charlie", "charlie@example.com", "11223")]

def getOrCreateCustomer (st : Store) (name email phone : String) : Store :=
  if emailExists st email then st
  else addCustomer st (mkCustomer st name email (some phone))

def seedCustomers (st : Store) : Store :=
  seedCustomerData.foldl (fun s d => getOrCreateCustomer s d.1 d.2.1 d.2.2) st

/-- Routine `seed_products` (crm/seed_db.py lines 30-45): get-or-create each of
the three sample products keyed by name. -/
def seedProductData : List (String × ℚ × Int) :=
  [("Laptop", 850, 10), ("Phone", 500, 20), ("Headphones", 75, 50)]

def productNameExists (st : Store) (name : String) : Bool :=
  st.products.any (fun p => p.name == name)

def getOrCreateProduct (st : Store) (name : String) (price : ℚ)
    (stock : Int) : Store :=
  if productNameExists st name then st
  else addProduct st (mkProduct st name price stock)

def seedProducts (st : Store) : Store :=
  seedProductData.foldl (fun s d => getOrCreateProduct s d.1 d.2.1 d.2.2) st

/-- Routine `seed_orders` (crm/seed_db.py lines 48-59): if any customer and any
product exist, create one order for the first customer over the first two
products, with the price sum as total. -/
def seedOrders (st : Store) : Store :=
  match st.customers with
  | [] => st
  | customer :: _ =>
    if st.products.isEmpty then st
    else
      let products := st.products.take 2
      let o : Order :=
        ⟨st.orders.length + 1, customer.id, products.map Product.id,
         (products.map Product.price).sum⟩
      { st with orders := st.orders ++ [o] }

/-- Routine `run` (crm/seed_db.py lines 62-67). -/
def seedRun (st : Store) : Store :=
  seedOrders (seedProducts (seedCustomers st))

/-! ## Theorems -/

/-- C7: starting from an empty store, one seed run yields 3 customers,
3 products and 1 order; a second run adds no customer or product but adds
one more order, leaving 3 customers, 3 products and 2 orders. -/
theorem seed_twice_counts :
    (seedRun emptyStore).customers.length = 3 ∧
    (seedRun emptyStore).products.length = 3 ∧
    (seedRun emptyStore).orders.length = 1 ∧
    (seedRun (seedRun emptyStore)).customers.length = 3 ∧
    (seedRun (seedRun emptyStore)).products.length = 3 ∧
    (seedRun (seedRun emptyStore)).orders.length = 2 := by
  decide

/-- C5: creating a customer with an email already present in the store
fails with DuplicateError and returns the store unchanged. -/
theorem createCustomer_duplicate_email (st : Store) (name email : String)
    (phone : Option String) (c : Customer) (hc : c ∈ st.customers)
    (he : c.email = email) :
    createCustomer st name email phone = (st, .error .DuplicateError) := by
  have hex : emailExists st email = true := by
    simp only [emailExists, List.any_eq_true]
    exact ⟨c, hc, by simp [he]⟩
  simp [createCustomer, hex]

def annStore : Store := ⟨[⟨1, "Ann", "ann@x.com", none⟩], [], []⟩

theorem createCustomer_duplicate_email_witness :
    createCustomer annStore "Bob" "ann@x.com" (some "1234567890")
      = (annStore, .error .DuplicateError) :=
  createCustomer_duplicate_email annStore "Bob" "ann@x.com"
    (some "1234567890") ⟨1, "Ann", "ann@x.com", none⟩ (by decide) rfl

/-- C3: the three CreateOrder checks run in the order customer resolution,
non-empty product list, product resolution; the first failing check
short-circuits the rest (an absent customer wins over an empty list, an
empty list wins over unresolvable ids), and each failure leaves the store
unchanged. -/
theorem createOrder_check_order (st : Store) (cid : Nat)
    (pids : List Nat) :
    (findCustomer st cid = none →
       createOrder st cid pids = (st, .error .NotFoundError)) ∧
    (findCustomer st cid ≠ none → pids = [] →
       createOrder st cid pids = (st, .error .RequiredFieldError)) ∧
    (findCustomer st cid ≠ none → pids ≠ [] →
       (resolvedProducts st pids).length ≠ pids.length →
       createOrder st cid pids = (st, .error .ReferenceError)) := by
  refine ⟨fun hnone => ?_, fun hsome hnil => ?_, fun hsome hne hlen => ?_⟩
  · simp [createOrder, hnone]
  · obtain ⟨c, hc⟩ := Option.ne_none_iff_exists'.mp hsome
    subst hnil
    simp [createOrder, hc]
  · obtain ⟨c, hc⟩ := Option.ne_none_iff_exists'.mp hsome
    simp [createOrder, hc, List.isEmpty_iff, hne, hlen]

theorem createOrder_check_order_witness :
    createOrder emptyStore 1 [] = (emptyStore, .error .NotFoundError) :=
  (createOrder_check_order emptyStore 1 []).1 (by decide)

/-- C6: with a fresh email, CreateCustomer fails with FormatError exactly
when the supplied phone is non-empty and fails the regex; a matching
phone, an empty phone and an absent phone all succeed and persist the
customer. -/
theorem createCustomer_phone_validation (st : Store) (name email : String)
    (hfresh : emailExists st email = false) :
    (∀ p : String, p ≠ "" → phoneMatches p = false →
       createCustomer st name email (some p) = (st, .error .FormatError)) ∧
    (∀ p : String, phoneMatches p = true →
       createCustomer st name email (some p)
         = (addCustomer st (mkCustomer st name email (some p)),
            .ok (mkCustomer st name email (some p)))) ∧
    (createCustomer st name email (some "")
       = (addCustomer st (mkCustomer st name email (some "")),
          .ok (mkCustomer st name email (some "")))) ∧
    (createCustomer st name email none
       = (addCustomer st (mkCustomer st name email none),
          .ok (mkCustomer st name email none))) := by
  refine ⟨fun p hne hbad => ?_, fun p hgood => ?_, ?_, ?_⟩
  · simp [createCustomer, hfresh, phoneInvalid, hne, hbad]
  · simp [createCustomer, hfresh, phoneInvalid, hgood]
  · simp [createCustomer, hfresh, phoneInvalid]
  · simp [createCustomer, hfresh, phoneInvalid]

theorem createCustomer_phone_validation_witness :
    createCustomer emptyStore "Nia" "nia@x.com" (some "555-0199")
      = (emptyStore, .error .FormatError) :=
  (createCustomer_phone_validation emptyStore "Nia" "nia@x.com" rfl).1
    "555-0199" (by decide) (by decide)

/-- C8: CreateProduct fails with RangeError when price ≤ 0 or stock < 0;
with price > 0 and stock ≥ 0 it succeeds for every store and every name
(no uniqueness check on the name) and persists a product carrying exactly
the given name, price and stock; an omitted stock defaults to 0. -/
theorem createProduct_range (st : Store) (name : String) (price : ℚ)
    (stock : Int) :
    (price ≤ 0 ∨ stock < 0 →
       createProduct st name price stock = (st, .error .RangeError)) ∧
    (0 < price → 0 ≤ stock →
       createProduct st name price stock
         = (addProduct st (mkProduct st name price stock),
            .ok (mkProduct st name price stock)) ∧
       (mkProduct st name price stock).name = name ∧
       (mkProduct st name price stock).price = price ∧
       (mkProduct st name price stock).stock = stock) ∧
    (createProductDefault st name price
       = createProduct st name price 0) := by
  refine ⟨fun hbad => ?_, fun hp hs => ?_, rfl⟩
  · rcases hbad with hp | hs
    · simp [createProduct, hp]
    · rcases le_or_lt price 0 with h | h
      · simp [createProduct, h]
      · simp [createProduct, not_le.mpr h, hs, not_le.mpr hs]
  · simp [createProduct, not_le.mpr hp, not_lt.mpr hs, mkProduct]

theorem createProduct_range_witness :
    createProduct emptyStore "Laptop" (-1) 5
      = (emptyStore, .error .RangeError) :=
  (createProduct_range emptyStore "Laptop" (-1) 5).1 (Or.inl (by norm_num))

/-- C9: CreateCustomer applies no required-field check to the name: with a
fresh email and an acceptable phone it succeeds with name equal to the
empty string and persists that customer; BulkCreateCustomers instead
rejects any entry whose name or email is absent or empty with the
required-field message. -/
theorem createCustomer_empty_name (st : Store) (email : String)
    (phone : Option String) (hfresh : emailExists st email = false)
    (hphone : phoneInvalid phone = false) :
    (createCustomer st "" email phone
       = (addCustomer st (mkCustomer st "" email phone),
          .ok (mkCustomer st "" email phone))) ∧
    (mkCustomer st "" email phone).name = "" ∧
    (∀ d : CustomerInput, strFalsy d.name = true →
       bulkEntry st d = .error "Name and Email are required.") ∧
    (∀ d : CustomerInput, strFalsy d.email = true →
       bulkEntry st d = .error "Name and Email are required.") := by
  refine ⟨?_, rfl, fun d hd => ?_, fun d hd => ?_⟩
  · simp [createCustomer, hfresh, hphone]
  · simp [bulkEntry, hd]
  · simp [bulkEntry, hd]

theorem createCustomer_empty_name_witness :
    createCustomer emptyStore "" "anon@x.com" none
      = (addCustomer emptyStore (mkCustomer emptyStore "" "anon@x.com" none),
         .ok (mkCustomer emptyStore "" "anon@x.com" none)) :=
  (createCustomer_empty_name emptyStore "anon@x.com" none rfl rfl).1

/-- A successful bulk entry appends exactly the returned customer to the
store it was checked against, and that check required the email to be
absent and the phone to be acceptable at that moment. -/
theorem bulkEntry_ok_spec {st : Store} {d : CustomerInput}
    {sc : Store × Customer} (h : bulkEntry st d = .ok sc) :
    sc.1 = addCustomer st sc.2 ∧ emailExists st sc.2.email = false ∧
      phoneInvalid sc.2.phone = false := by
  simp only [bulkEntry] at h
  split at h
  · simp at h
  · split at h
    · simp at h
    · split at h
      · simp at h
      · rename_i h₁ h₂ h₃
        injection h with h'
        subst h'
        exact ⟨rfl, by simpa using h₂, by simpa using h₃⟩

/-- The post-call customer table is the pre-call table followed by the
created customers, in order. -/
theorem bulk_customers_eq (st : Store) (inputs : List CustomerInput) :
    (bulkCreateCustomers st inputs).1.customers
      = st.customers ++ (bulkCreateCustomers st inputs).2.1 := by
  induction inputs generalizing st with
  | nil => simp [bulkCreateCustomers]
  | cons d rest ih =>
    cases hbe : bulkEntry st d with
    | ok sc =>
      have hspec := bulkEntry_ok_spec hbe
      simp only [bulkCreateCustomers, hbe]
      rw [ih sc.1, hspec.1]
      simp [addCustomer]
    | error msg =>
      simp only [bulkCreateCustomers, hbe]
      exact ih st

theorem bulk_length_aux (inputs : List CustomerInput) (st : Store) :
    ((bulkCreateCustomers st inputs).2.1).length
      + ((bulkCreateCustomers st inputs).2.2).length = inputs.length := by
  induction inputs generalizing st with
  | nil => simp [bulkCreateCustomers]
  | cons d rest ih =>
    cases hbe : bulkEntry st d with
    | ok sc =>
      have := ih sc.1
      simp only [bulkCreateCustomers, hbe, List.length_cons]
      omega
    | error msg =>
      have := ih st
      simp only [bulkCreateCustomers, hbe, List.length_cons]
      omega

/-- A successful bulk entry creates the customer carrying exactly that
entry's name, email and phone. -/
theorem bulkEntry_ok_fields {st : Store} {d : CustomerInput}
    {sc : Store × Customer} (h : bulkEntry st d = .ok sc) :
    sc.2 = mkCustomer st (d.name.getD "") (d.email.getD "") d.phone := by
  simp only [bulkEntry] at h
  split at h
  · simp at h
  · split at h
    · simp at h
    · split at h
      · simp at h
      · injection h with h'
        subst h'
        rfl

theorem bulkResults_length (inputs : List CustomerInput) (st : Store) :
    (bulkResults st inputs).length = inputs.length := by
  induction inputs generalizing st with
  | nil => rfl
  | cons d rest ih =>
    cases hbe : bulkEntry st d with
    | ok sc => simp only [bulkResults, hbe, List.length_cons, ih]
    | error msg => simp only [bulkResults, hbe, List.length_cons, ih]

theorem bulk_created_eq (inputs : List CustomerInput) (st : Store) :
    (bulkCreateCustomers st inputs).2.1
      = (bulkResults st inputs).filterMap Except.toOption := by
  induction inputs generalizing st with
  | nil => rfl
  | cons d rest ih =>
    cases hbe : bulkEntry st d with
    | ok sc =>
      simp only [bulkCreateCustomers, bulkResults, hbe,
        List.filterMap_cons, Except.toOption]
      exact congrArg _ (ih sc.1)
    | error msg =>
      simp only [bulkCreateCustomers, bulkResults, hbe,
        List.filterMap_cons, Except.toOption]
      exact ih st

theorem bulk_errors_eq (inputs : List CustomerInput) (st : Store) :
    (bulkCreateCustomers st inputs).2.2
      = (bulkResults st inputs).filterMap errPart := by
  induction inputs generalizing st with
  | nil => rfl
  | cons d rest ih =>
    cases hbe : bulkEntry st d with
    | ok sc =>
      simp only [bulkCreateCustomers, bulkResults, hbe,
        List.filterMap_cons, errPart]
      exact ih sc.1
    | error msg =>
      simp only [bulkCreateCustomers, bulkResults, hbe,
        List.filterMap_cons, errPart]
      exact congrArg _ (ih st)

theorem bulkResults_entry (inputs : List CustomerInput) (st : Store) :
    ∀ (i : Nat) (d : CustomerInput) (c : Customer),
      inputs[i]? = some d →
      (bulkResults st inputs)[i]? = some (Except.ok c) →
      c.name = d.name.getD "" ∧ c.email = d.email.getD "" ∧
        c.phone = d.phone := by
  induction inputs generalizing st with
  | nil => intro i d c hd hc; simp at hd
  | cons e rest ih =>
    intro i d c hd hc
    cases hbe : bulkEntry st e with
    | ok sc =>
      simp only [bulkResults, hbe] at hc
      cases i with
      | zero =>
        simp only [List.getElem?_cons_zero, Option.some_inj] at hd hc
        have hf := bulkEntry_ok_fields hbe
        injection hc with hc'
        rw [← hc', hf, ← hd]
        exact ⟨rfl, rfl, rfl⟩
      | succ j =>
        simp only [List.getElem?_cons_succ] at hd hc
        exact ih sc.1 j d c hd hc
    | error msg =>
      simp only [bulkResults, hbe] at hc
      cases i with
      | zero => simp at hc
      | succ j =>
        simp only [List.getElem?_cons_succ] at hd hc
        exact ih st j d c hd hc

/-- C2: for every store and every list of N inputs, BulkCreateCustomers
returns a created list and an error list whose lengths sum to N, and the
created customers are all persisted: the final customer table is the
initial one followed by exactly the created list, regardless of the
failed entries.  Both returned lists preserve input order: the loop
yields one outcome per input entry, positionally aligned with the input
list (the i-th outcome is the saved customer carrying the i-th entry's
fields, or that entry's error message), and the created and error lists
are the order-preserving projections of that outcome sequence onto its
successes and failures. -/
theorem bulk_partition (st : Store) (inputs : List CustomerInput) :
    ((bulkCreateCustomers st inputs).2.1).length
        + ((bulkCreateCustomers st inputs).2.2).length = inputs.length ∧
    (bulkCreateCustomers st inputs).1.customers
        = st.customers ++ (bulkCreateCustomers st inputs).2.1 ∧
    (∀ c ∈ (bulkCreateCustomers st inputs).2.1,
       c ∈ (bulkCreateCustomers st inputs).1.customers) ∧
    (bulkResults st inputs).length = inputs.length ∧
    (bulkCreateCustomers st inputs).2.1
        = (bulkResults st inputs).filterMap Except.toOption ∧
    (bulkCreateCustomers st inputs).2.2
        = (bulkResults st inputs).filterMap errPart ∧
    ∀ (i : Nat) (d : CustomerInput) (c : Customer),
      inputs[i]? = some d →
      (bulkResults st inputs)[i]? = some (Except.ok c) →
      c.name = d.name.getD "" ∧ c.email = d.email.getD "" ∧
        c.phone = d.phone := by
  refine ⟨bulk_length_aux inputs st, bulk_customers_eq st inputs, ?_,
    bulkResults_length inputs st, bulk_created_eq inputs st,
    bulk_errors_eq inputs st, bulkResults_entry inputs st⟩
  intro c hc
  rw [bulk_customers_eq st inputs]
  exact List.mem_append_right _ hc

theorem bulk_partition_witness :
    ((⟨1, "A", "a@x.com", none⟩ : Customer)
       ∈ (bulkCreateCustomers emptyStore
           [⟨some "A", some "a@x.com", none⟩]).1.customers) ∧
    ((⟨1, "A", "a@x.com", none⟩ : Customer).name = (some "A").getD "" ∧
     (⟨1, "A", "a@x.com", none⟩ : Customer).email
        = (some "a@x.com").getD "" ∧
     (⟨1, "A", "a@x.com", none⟩ : Customer).phone
        = (⟨some "A", some "a@x.com", none⟩ : CustomerInput).phone) :=
  ⟨(bulk_partition emptyStore [⟨some "A", some "a@x.com", none⟩]).2.2.1
      ⟨1, "A", "a@x.com", none⟩ (by decide),
   (bulk_partition emptyStore
       [⟨some "A", some "a@x.com", none⟩]).2.2.2.2.2.2 0
      ⟨some "A", some "a@x.com", none⟩ ⟨1, "A", "a@x.com", none⟩ rfl rfl⟩

theorem emailExists_eq_false_iff (st : Store) (e : String) :
    emailExists st e = false ↔ e ∉ st.customers.map Customer.email := by
  simp [emailExists, List.any_eq_false, List.mem_map]

theorem bulk_nodup_aux (inputs : List CustomerInput) (st : Store)
    (h : (st.customers.map Customer.email).Nodup) :
    ((bulkCreateCustomers st inputs).1.customers.map Customer.email).Nodup := by
  induction inputs generalizing st with
  | nil => simpa [bulkCreateCustomers] using h
  | cons d rest ih =>
    cases hbe : bulkEntry st d with
    | ok sc =>
      have hspec := bulkEntry_ok_spec hbe
      simp only [bulkCreateCustomers, hbe]
      refine ih sc.1 ?_
      rw [hspec.1]
      simp only [addCustomer, List.map_append, List.map_cons, List.map_nil]
      rw [List.nodup_append]
      refine ⟨h, List.nodup_singleton _, ?_⟩
      intro a ha hb
      rw [List.mem_singleton] at hb
      subst hb
      exact (emailExists_eq_false_iff st sc.2.email).mp hspec.2.1 ha
    | error msg =>
      simp only [bulkCreateCustomers, hbe]
      exact ih st h

/-- C10: the per-entry duplicate-email check observes rows persisted
earlier in the same batch: whenever the pre-call customer emails are
pairwise distinct, so are all post-call emails — a later entry repeating
an earlier-created email is never created (it lands in the error list) —
and in particular the created customers' emails are pairwise distinct. -/
theorem bulk_email_unique (st : Store) (inputs : List CustomerInput)
    (h : (st.customers.map Customer.email).Nodup) :
    ((bulkCreateCustomers st inputs).1.customers.map Customer.email).Nodup ∧
    ((bulkCreateCustomers st inputs).2.1.map Customer.email).Nodup := by
  have hfin := bulk_nodup_aux inputs st h
  refine ⟨hfin, ?_⟩
  rw [bulk_customers_eq st inputs, List.map_append] at hfin
  exact hfin.of_append_right

/-- The price a product id resolves to: the price of the stored product
with that id, 0 when none exists. -/
def resolvePrice (st : Store) (pid : Nat) : ℚ :=
  match st.products.find? (fun q => q.id == pid) with
  | some p => p.price
  | none => 0

theorem find_eq_of_nodup {l : List Product}
    (h : (l.map Product.id).Nodup) {p : Product} (hp : p ∈ l) :
    l.find? (fun q => q.id == p.id) = some p := by
  induction l with
  | nil => cases hp
  | cons a t ih =>
    rw [List.map_cons, List.nodup_cons] at h
    rcases List.mem_cons.mp hp with rfl | hmem
    · simp [List.find?_cons]
    · have hne : a.id ≠ p.id := by
        intro he
        have : p.id ∈ t.map Product.id := List.mem_map_of_mem _ hmem
        rw [← he] at this
        exact h.1 this
      rw [List.find?_cons_of_neg _ (by simpa using hne)]
      exact ih h.2 hmem

/-- With duplicate-free store ids, a duplicate-free id list all of whose
members resolve picks out rows whose ids are a permutation of the list. -/
theorem resolved_ids_perm (st : Store) (pids : List Nat)
    (hnd : (st.products.map Product.id).Nodup) (hp : pids.Nodup)
    (hall : ∀ pid ∈ pids, ∃ p ∈ st.products, p.id = pid) :
    ((resolvedProducts st pids).map Product.id).Perm pids := by
  have hnd₁ : ((resolvedProducts st pids).map Product.id).Nodup :=
    hnd.sublist ((List.filter_sublist _).map _)
  have hmem : ∀ x, x ∈ (resolvedProducts st pids).map Product.id
      ↔ x ∈ pids := by
    intro x
    constructor
    · intro hx
      obtain ⟨p, hpmem, rfl⟩ := List.mem_map.mp hx
      have := List.of_mem_filter hpmem
      simpa using this
    · intro hx
      obtain ⟨p, hpmem, hpid⟩ := hall x hx
      subst hpid
      refine List.mem_map.mpr ⟨p, List.mem_filter.mpr ⟨hpmem, ?_⟩, rfl⟩
      simpa using hx
  exact (hnd₁.subperm fun x hx => (hmem x).mp hx).antisymm
    (hp.subperm fun x hx => (hmem x).mpr hx)

theorem resolved_price_sum (st : Store) (pids : List Nat)
    (hnd : (st.products.map Product.id).Nodup) (hp : pids.Nodup)
    (hall : ∀ pid ∈ pids, ∃ p ∈ st.products, p.id = pid) :
    ((resolvedProducts st pids).map Product.price).sum
      = (pids.map (resolvePrice st)).sum := by
  have hperm := resolved_ids_perm st pids hnd hp hall
  have hmapeq : (resolvedProducts st pids).map Product.price
      = ((resolvedProducts st pids).map Product.id).map (resolvePrice st) := by
    rw [List.map_map]
    refine List.map_congr_left fun p hpmem => ?_
    have hpp : p ∈ st.products := List.mem_of_mem_filter hpmem
    simp [Function.comp, resolvePrice, find_eq_of_nodup hnd hpp]
  rw [hmapeq]
  exact (hperm.map (resolvePrice st)).sum_eq

/-- If some requested id resolves to no stored row, the resolved row
count falls short of the requested list length. -/
theorem resolved_short (st : Store) (pids : List Nat)
    (hnd : (st.products.map Product.id).Nodup)
    {pid₀ : Nat} (h₀ : pid₀ ∈ pids)
    (hmiss : ∀ p ∈ st.products, p.id ≠ pid₀) :
    (resolvedProducts st pids).length < pids.length := by
  have hnd₁ : ((resolvedProducts st pids).map Product.id).Nodup :=
    hnd.sublist ((List.filter_sublist _).map _)
  have hsub : (resolvedProducts st pids).map Product.id
      ⊆ pids.dedup.erase pid₀ := by
    intro x hx
    obtain ⟨p, hpmem, rfl⟩ := List.mem_map.mp hx
    have hpm : p ∈ st.products := List.mem_of_mem_filter hpmem
    have hxpids : p.id ∈ pids := by
      have := List.of_mem_filter hpmem
      simpa using this
    rw [(List.nodup_dedup pids).mem_erase_iff]
    exact ⟨hmiss p hpm, List.mem_dedup.mpr hxpids⟩
  have hle : ((resolvedProducts st pids).map Product.id).length
      ≤ (pids.dedup.erase pid₀).length := (hnd₁.subperm hsub).length_le
  have h₀d : pid₀ ∈ pids.dedup := List.mem_dedup.mpr h₀
  have herase : (pids.dedup.erase pid₀).length = pids.dedup.length - 1 :=
    List.length_erase_of_mem h₀d
  have hdlen : pids.dedup.length ≤ pids.length :=
    (List.dedup_sublist pids).length_le
  have hpos : 0 < pids.dedup.length := List.length_pos_of_mem h₀d
  have hml : ((resolvedProducts st pids).map Product.id).length
      = (resolvedProducts st pids).length := List.length_map _ _
  omega

/-- C1 (amended): with an existing customer, a non-empty and
duplicate-free product-id list every member of which resolves makes
CreateOrder succeed, appending an order whose total_amount is the exact
sum of the resolved products' prices; if any id resolves to no product,
CreateOrder fails with ReferenceError.  (A list with a repeated id fails
with ReferenceError even though every id resolves; see the
counterexample.) -/
theorem createOrder_total (st : Store) (cid : Nat) (pids : List Nat)
    (hnd : (st.products.map Product.id).Nodup)
    (hc : findCustomer st cid ≠ none) (hne : pids ≠ []) :
    (pids.Nodup → (∀ pid ∈ pids, ∃ p ∈ st.products, p.id = pid) →
       ∃ o : Order,
         createOrder st cid pids
           = ({ st with orders := st.orders ++ [o] }, .ok o) ∧
         o.customer_id = cid ∧
         o.total_amount = (pids.map (resolvePrice st)).sum) ∧
    ((∃ pid ∈ pids, ∀ p ∈ st.products, p.id ≠ pid) →
       createOrder st cid pids = (st, .error .ReferenceError)) := by
  obtain ⟨c, hcv⟩ := Option.ne_none_iff_exists'.mp hc
  constructor
  · intro hpnd hall
    have hlen : (resolvedProducts st pids).length = pids.length := by
      simpa using (resolved_ids_perm st pids hnd hpnd hall).length_eq
    refine ⟨⟨st.orders.length + 1, cid,
        (resolvedProducts st pids).map Product.id,
        ((resolvedProducts st pids).map Product.price).sum⟩, ?_, rfl,
        resolved_price_sum st pids hnd hpnd hall⟩
    simp [createOrder, hcv, List.isEmpty_iff, hne, hlen]
  · rintro ⟨pid₀, h₀, hmiss⟩
    have hlt := resolved_short st pids hnd h₀ hmiss
    simp [createOrder, hcv, List.isEmpty_iff, hne, Nat.ne_of_lt hlt]

def c1Store : Store :=
  ⟨[⟨1, "Ann", "ann@x.com", none⟩], [⟨1, "Laptop", 850, 10⟩], []⟩

theorem createOrder_total_witness :
    ∃ o : Order,
      createOrder c1Store 1 [1]
        = ({ c1Store with orders := c1Store.orders ++ [o] }, .ok o) ∧
      o.customer_id = 1 ∧
      o.total_amount = ([1].map (resolvePrice c1Store)).sum :=
  (createOrder_total c1Store 1 [1] (by decide) (by decide) (by decide)).1
    (by decide) (by decide)

/-- C1 (counterexample): in a store holding customer 1 and product 1,
the request `CreateOrder(1, [1, 1])` has an existing customer, a
non-empty product-id list, and every listed id resolves to an existing
product, yet it fails with ReferenceError because the resolved row count
(1) differs from the request length (2). -/
theorem createOrder_dup_ids_counterexample :
    (findCustomer c1Store 1).isSome = true ∧
    [1, 1] ≠ ([] : List Nat) ∧
    (∀ pid ∈ [1, 1], ∃ p ∈ c1Store.products, p.id = pid) ∧
    createOrder c1Store 1 [1, 1] = (c1Store, .error .ReferenceError) := by
  exact ⟨rfl, by decide, by decide, rfl⟩

/-- States reachable from the empty store by the four mutations.  Each
mutation returns the post-call store in both the success and the failure
case (a raised error performs no write), so taking the first component
covers both. -/
inductive MutReach : Store → Prop where
  | empty : MutReach emptyStore
  | createCust {s : Store} {n e : String} {p : Option String} :
      MutReach s → MutReach (createCustomer s n e p).1
  | bulk {s : Store} (inputs : List CustomerInput) :
      MutReach s → MutReach (bulkCreateCustomers s inputs).1
  | createProd {s : Store} {n : String} {q : ℚ} {k : Int} :
      MutReach s → MutReach (createProduct s n q k).1
  | createOrd {s : Store} {i : Nat} {ps : List Nat} :
      MutReach s → MutReach (createOrder s i ps).1

/-- Every present, non-empty customer phone matches the regex. -/
def PhonesValid (st : Store) : Prop :=
  ∀ c ∈ st.customers, ∀ p : String, c.phone = some p → p ≠ "" →
    phoneMatches p = true

theorem phoneInvalid_false_spec {ph : Option String}
    (h : phoneInvalid ph = false) :
    ∀ p : String, ph = some p → p ≠ "" → phoneMatches p = true := by
  intro p hp hne
  subst hp
  by_contra hm
  have hm' : phoneMatches p = false := by
    cases hmm : phoneMatches p
    · rfl
    · exact absurd hmm hm
  simp [phoneInvalid, hm', hne] at h

theorem phonesValid_addCustomer {st : Store} {c : Customer}
    (h : PhonesValid st)
    (hc : ∀ p : String, c.phone = some p → p ≠ "" → phoneMatches p = true) :
    PhonesValid (addCustomer st c) := by
  intro c' hc' p hp hne
  rcases List.mem_append.mp hc' with hmem | hmem
  · exact h c' hmem p hp hne
  · rw [List.mem_singleton] at hmem
    subst hmem
    exact hc p hp hne

theorem phonesValid_createCustomer {st : Store} (n e : String)
    (ph : Option String) (h : PhonesValid st) :
    PhonesValid (createCustomer st n e ph).1 := by
  by_cases h₁ : emailExists st e = true
  · simpa [createCustomer, h₁] using h
  · by_cases h₂ : phoneInvalid ph = true
    · simpa [createCustomer, h₁, h₂] using h
    · have hok : (createCustomer st n e ph).1
          = addCustomer st (mkCustomer st n e ph) := by
        simp [createCustomer, h₁, h₂]
      rw [hok]
      exact phonesValid_addCustomer h
        (phoneInvalid_false_spec (by simpa using h₂))

theorem phonesValid_bulk (inputs : List CustomerInput) (st : Store)
    (h : PhonesValid st) : PhonesValid (bulkCreateCustomers st inputs).1 := by
  induction inputs generalizing st with
  | nil => simpa [bulkCreateCustomers] using h
  | cons d rest ih =>
    cases hbe : bulkEntry st d with
    | ok sc =>
      have hspec := bulkEntry_ok_spec hbe
      simp only [bulkCreateCustomers, hbe]
      refine ih sc.1 ?_
      rw [hspec.1]
      exact phonesValid_addCustomer h (phoneInvalid_false_spec hspec.2.2)
    | error msg =>
      simp only [bulkCreateCustomers, hbe]
      exact ih st h

/-- C4 (amended): in every state reachable from the empty store by the
four mutations alone, every customer whose phone is present and non-empty
matches the regex.  (The seed routine breaks the unrestricted claim; see
the counterexample.) -/
theorem mutation_phone_invariant (st : Store) (h : MutReach st) :
    PhonesValid st := by
  induction h with
  | empty => intro c hc; simp [emptyStore] at hc
  | createCust _ ih => exact phonesValid_createCustomer _ _ _ ih
  | bulk inputs _ ih => exact phonesValid_bulk inputs _ ih
  | createProd _ ih =>
      intro c hc p hp hne
      rename_i s n q k _
      have : (createProduct s n q k).1.customers = s.customers := by
        simp only [createProduct]
        split
        · rfl
        · split
          · rfl
          · rfl
      rw [this] at hc
      exact ih c hc p hp hne
  | createOrd _ ih =>
      intro c hc p hp hne
      rename_i s i ps _
      have : (createOrder s i ps).1.customers = s.customers := by
        simp only [createOrder]
        cases findCustomer s i
        · rfl
        · simp only []
          split
          · rfl
          · split
            · rfl
            · rfl
      rw [this] at hc
      exact ih c hc p hp hne

theorem mutation_phone_invariant_witness : phoneMatches "123-456-7890" = true :=
  mutation_phone_invariant _
    ((MutReach.createCust MutReach.empty :
        MutReach (createCustomer emptyStore "A" "a@x.com"
          (some "123-456-7890")).1))
    ⟨1, "A", "a@x.com", some "123-456-7890"⟩ (by decide) "123-456-7890" rfl
    (by decide)

/-- C4 (counterexample): the state reached by one run of the seed routine
from the empty store contains the customer Alice with present, non-empty
phone "12345", which does not match the regex — the unrestricted phone
invariant fails on seed-reachable states. -/
theorem seed_phone_counterexample :
    ¬ PhonesValid (seedRun emptyStore) := by
  intro h
  have halice :
      (⟨1, "Alice", "alice@example.com", some "12345"⟩ : Customer)
        ∈ (seedRun emptyStore).customers := by decide
  have := h _ halice "12345" rfl (by decide)
  simp [phoneMatches, dashFormat] at this

theorem bulk_email_unique_witness :
    (((bulkCreateCustomers emptyStore
        [⟨some "A", some "dup@x.com", none⟩,
         ⟨some "B", some "dup@x.com", none⟩]).1.customers.map
          Customer.email).Nodup ∧
     ((bulkCreateCustomers emptyStore
        [⟨some "A", some "dup@x.com", none⟩,
         ⟨some "B", some "dup@x.com", none⟩]).2.1.map
          Customer.email).Nodup) :=
  bulk_email_unique emptyStore
    [⟨some "A", some "dup@x.com", none⟩, ⟨some "B", some "dup@x.com", none⟩]
    (by simp [emptyStore])

end Crm
